import Mathlib

/-!
# Verification of the brand-correction pipeline (`src/app.py`)

Shallow embedding of the single-file Streamlit application `src/app.py`:
an uploaded workbook (ordered list of named sheets) is processed sheet by
sheet; a sheet with a case-insensitively named "brand" column has that
column serialized to CSV, sent to a text-correction oracle, and the parsed
response written back into the column in place.

Modelling conventions:
* Python strings are Lean `String`s; the Python `str.splitlines` /
  `str.strip` / `str.lower` library routines are modelled at the
  character-list level (`slAux`, `stripC`, `pyLower`).  `splitlines`
  covers the Python line terminators `\n`, `\r`, `\r\n`, `\x0b`, `\x0c`,
  `\x1c`, `\x1d`, `\x1e`, `\x85`, `\u2028`, `\u2029`; `str.lower` is
  modelled on ASCII letters (all column names concerned are ASCII).
* A pandas DataFrame is a `Frame`: a list of column names plus a list of
  rows, with the default `RangeIndex` 0,1,2,... left implicit.  Assigning
  a Series to a column (`df[col] = corrected_df['brand']`, line 137 of
  `app.py`) aligns on that index: row `i` receives element `i` of the
  assigned values and rows beyond the end of the values receive the
  missing value NaN (`setCol`).
* `pandas.read_csv` is modelled by `pdReadCsv` to the extent the program
  exercises it: blank lines are skipped, an empty input is an
  `EmptyDataError`, a data row with more fields than the header is a
  tokenize error, a data row with fewer fields is padded with NaN, and
  the common NA spellings parse to NaN.  Column-level dtype inference and
  the index-column inference special case are not modelled: no claim
  depends on the inferred type of a parsed cell.
* Fallible steps return `Except`; `st.stop` after `st.error` is the
  `.error` branch of the pipeline.
-/

namespace BrandCorrector

/-! ## Cells and frames -/

/-- A spreadsheet / DataFrame cell: a text value, a number, or the
pandas missing value NaN. -/
inductive Cell where
  | text : String → Cell
  | num : Int → Cell
  | nan : Cell
deriving DecidableEq, Repr

/-- `str(cell)` as applied by `df[col].astype(str)` (line 103 of
`app.py`): text is unchanged, numbers print their decimal form, and NaN
prints as `"nan"`. -/
def pyStrCell : Cell → String
  | .text s => s
  | .num n => toString n
  | .nan => "nan"

/-- A pandas DataFrame: ordered column names plus rows of cells
(row `i` has implicit index label `i`). -/
structure Frame where
  cols : List String
  rows : List (List Cell)
deriving DecidableEq, Repr

/-- Cell of frame `f` at row `i`, column position `j` (if present). -/
def cellAt (f : Frame) (i j : Nat) : Option Cell :=
  match f.rows[i]? with
  | none => none
  | some r => r[j]?

/-! ## Python text primitives -/

/-- Python line terminators recognised by `str.splitlines`. -/
def isLineBreakChar (c : Char) : Bool :=
  c = '\n' || c = '\r' || c = '\x0b' || c = '\x0c' ||
  c = '\x1c' || c = '\x1d' || c = '\x1e' || c = '\x85' ||
  c = '\u2028' || c = '\u2029'

/-- Worker for `str.splitlines`: `acc` is the reversed current line,
`afterCR` records that the previous character was `'\r'` (so that a
following `'\n'` is the second half of a `"\r\n"` terminator and does
not open a new line).  A trailing terminator does not produce a final
empty line, matching Python. -/
def slAux : List Char → List Char → Bool → List (List Char)
  | [], acc, _ => if acc = [] then [] else [acc.reverse]
  | c :: rest, acc, afterCR =>
    if afterCR && (c = '\n' : Bool) then slAux rest acc false
    else if isLineBreakChar c then acc.reverse :: slAux rest [] (c = '\r')
    else slAux rest (c :: acc) false

/-- `str.splitlines` on a character list. -/
def splitLinesC (cs : List Char) : List (List Char) := slAux cs [] false

/-- `"\n".join` on character-list lines. -/
def joinNLc : List (List Char) → List Char
  | [] => []
  | [l] => l
  | l :: ls => l ++ '\n' :: joinNLc ls

/-- Whitespace characters removed by Python `str.strip()` (the ASCII
whitespace plus the common Unicode space characters). -/
def isPySpaceChar (c : Char) : Bool :=
  c = ' ' || c = '\t' || c = '\n' || c = '\r' || c = '\x0b' || c = '\x0c' ||
  c = '\x1c' || c = '\x1d' || c = '\x1e' || c = '\x85' || c = '\xa0' ||
  c = '\u2028' || c = '\u2029'

/-- Python `str.strip()` on a character list. -/
def stripC (cs : List Char) : List Char :=
  ((cs.dropWhile isPySpaceChar).reverse.dropWhile isPySpaceChar).reverse

/-- Python `str.strip()`. -/
def pyStrip (s : String) : String := String.mk (stripC s.data)

/-- Python `str.lower()` (ASCII letters; the target column name "brand"
and all compared column names are ASCII). -/
def pyLower (s : String) : String := String.mk (s.data.map Char.toLower)

/-- The fence-line test of line 127 of `app.py`:
`l.strip().startswith("```")` — a line counts as a code-fence delimiter
line exactly when, after stripping surrounding whitespace, it begins
with the triple-backtick marker. -/
def isFenceLineC (l : List Char) : Bool :=
  match stripC l with
  | '`' :: '`' :: '`' :: _ => true
  | _ => false

/-- The Response Normalizer (lines 127–128 of `app.py`): split the raw
text into lines, drop every code-fence delimiter line, rejoin the
remaining lines with `"\n"`. -/
def normalizeC (cs : List Char) : List Char :=
  joinNLc ((splitLinesC cs).filter (fun l => !(isFenceLineC l)))

/-- The Response Normalizer on `String`s. -/
def normalize (s : String) : String := String.mk (normalizeC s.data)

/-- The lines of `s` that the normalizer keeps. -/
def keptLines (s : String) : List (List Char) :=
  (splitLinesC s.data).filter (fun l => !(isFenceLineC l))

/-- Remove a single trailing empty line.  Rejoining lines with `"\n"`
and re-splitting loses exactly one trailing empty line; this function
states that loss. -/
def dropTrailingBlankC : List (List Char) → List (List Char)
  | [] => []
  | [l] => if l = [] then [] else [l]
  | l :: ls => l :: dropTrailingBlankC ls

/-! ## CSV serialization (pandas `Series.to_csv(index=False, header=True)`) -/

/-- Escape embedded double quotes (CSV doubling). -/
def csvEscapeQuotes (s : String) : String :=
  String.mk (s.data.foldr (fun c acc => if c = '"' then '"' :: '"' :: acc else c :: acc) [])

/-- A field needs quoting when it contains a separator, a quote, or a
line terminator (csv QUOTE_MINIMAL, the pandas default). -/
def csvNeedsQuote (s : String) : Bool :=
  s.data.any (fun c => c = ',' || c = '"' || c = '\n' || c = '\r')

/-- Render one CSV field with minimal quoting. -/
def csvField (s : String) : String :=
  if csvNeedsQuote s then "\"" ++ csvEscapeQuotes s ++ "\"" else s

/-- Join strings with a separator (Python `sep.join(...)`). -/
def joinWithSep (sep : String) : List String → String
  | [] => ""
  | [s] => s
  | s :: rest => s ++ sep ++ joinWithSep sep rest

/-- `Series.to_csv(index=False, header=True)` of line 105 of `app.py`:
the header line (column name) followed by one line per value, each line
terminated by `"\n"`. -/
def seriesToCsv (name : String) (vals : List String) : String :=
  joinWithSep "\n" ((name :: vals).map csvField) ++ "\n"

/-! ## CSV parsing (`pandas.read_csv`, lines 130–131 of `app.py`) -/

/-- Worker splitting one CSV record into fields: `acc` is the reversed
current field, `inQ` whether the scan is inside a quoted section; a
doubled quote inside a quoted section is a literal quote. -/
def splitFieldsAux : List Char → List Char → Bool → List (List Char)
  | [], acc, _ => [acc.reverse]
  | '"' :: '"' :: rest, acc, true => splitFieldsAux rest ('"' :: acc) true
  | '"' :: rest, acc, inQ => splitFieldsAux rest acc (!inQ)
  | ',' :: rest, acc, false => acc.reverse :: splitFieldsAux rest [] false
  | c :: rest, acc, inQ => splitFieldsAux rest (c :: acc) inQ

/-- Split one CSV record line into its fields. -/
def splitCsvLine (l : List Char) : List String :=
  (splitFieldsAux l [] false).map String.mk

/-- The common pandas default NA spellings (subset). -/
def isNaSpelling (s : String) : Bool :=
  s = "" || s = "nan" || s = "NaN" || s = "NA" || s = "N/A" || s = "null" || s = "NULL" || s = "None"

/-- Parse one CSV field into a cell: NA spellings become NaN, everything
else is kept as text (pandas dtype inference is not modelled; no claim
inspects the inferred type of a parsed cell). -/
def parseCell (s : String) : Cell :=
  if isNaSpelling s then Cell.nan else Cell.text s

/-- Failure modes of `pandas.read_csv` exercised here. -/
inductive CsvError where
  /-- `EmptyDataError`: no columns to parse. -/
  | emptyData : CsvError
  /-- `ParserError`: a data row has more fields than the header. -/
  | tokenizeError : CsvError
deriving DecidableEq, Repr

/-- Parse data rows against a header of `n` fields: a row with more
fields errors, a row with fewer fields is padded with NaN. -/
def parseRows (n : Nat) : List (List Char) → Except CsvError (List (List Cell))
  | [] => .ok []
  | r :: rs =>
    let fs := splitCsvLine r
    if n < fs.length then .error .tokenizeError
    else
      match parseRows n rs with
      | .error e => .error e
      | .ok rest => .ok ((fs.map parseCell ++ List.replicate (n - fs.length) Cell.nan) :: rest)

/-- `pandas.read_csv` on the normalized response text: skip blank lines,
first remaining line is the header, remaining lines are data rows. -/
def pdReadCsv (s : String) : Except CsvError Frame :=
  match (splitLinesC s.data).filter (fun l => !(l.isEmpty)) with
  | [] => .error .emptyData
  | hdr :: dataRows =>
    let cols := splitCsvLine hdr
    match parseRows cols.length dataRows with
    | .error e => .error e
    | .ok rows => .ok ⟨cols, rows⟩

/-! ## Frame column access and assignment -/

/-- `df[name]` column read: the values of the first column called
`name`, or `none` when there is no such column (a Python `KeyError`). -/
def getColVals (f : Frame) (name : String) : Option (List Cell) :=
  match f.cols.findIdx? (fun c => c == name) with
  | none => none
  | some j => some (f.rows.map (fun r => r.getD j Cell.nan))

/-- Replace, inside one row, every cell whose column is called `name`
with the value `v` (walking the column names and the row together). -/
def setRowCell (cols : List String) (name : String) (v : Cell) : List Cell → List Cell
  | [] => []
  | c :: rc =>
    match cols with
    | [] => c :: rc
    | cn :: cs => (if cn == name then v else c) :: setRowCell cs name v rc

/-- Assign the aligned value `vals[i]` (NaN beyond the end of `vals`) to
column `name` of each row, `i` being the row position. -/
def setColRows (cols : List String) (name : String) (vals : List Cell) :
    List (List Cell) → Nat → List (List Cell)
  | [], _ => []
  | r :: rs, i => setRowCell cols name (vals.getD i Cell.nan) r :: setColRows cols name vals rs (i + 1)

/-- `df[col] = series` (line 137 of `app.py`): positional index
alignment of the assigned values against the frame's RangeIndex — row
`i` receives `vals[i]`, rows past the end of `vals` receive NaN, extra
values are dropped.  Row count, row order and all other columns are
untouched. -/
def setCol (f : Frame) (name : String) (vals : List Cell) : Frame :=
  ⟨f.cols, setColRows f.cols name vals f.rows 0⟩

/-! ## Brand registry (lines 32–53 of `app.py`) -/

/-- `list(dict.fromkeys(l))` (line 53 of `app.py`): fold left, keeping
the first occurrence of each string. -/
def pyDictFromKeys (l : List String) : List String :=
  l.foldl (fun acc x => if x ∈ acc then acc else acc ++ [x]) []

/-- The Brand Registry constructor of spec §4.1:
`build_registry(manual, scraped) = list(dict.fromkeys(manual + scraped))`
(line 53 of `app.py`, with the two source lists made parameters as the
spec contract states them). -/
def build_registry (manual scraped : List String) : List String :=
  pyDictFromKeys (manual ++ scraped)

/-- Modelled from the spec (§4.1): "removes duplicates preserving first
occurrence" — the reference order-preserving deduplication that keeps
the first occurrence of each string, used to compare `build_registry`
against the spec's description. -/
def dedupFirstSpec : List String → List String
  | [] => []
  | x :: xs => x :: dedupFirstSpec (xs.filter (fun y => !(y == x)))
termination_by l => l.length
decreasing_by
  simp only [List.length_cons]
  exact Nat.lt_succ_of_le (List.length_filter_le _ _)

/-- A failure of the scrape step (`fetch_superdrug_brands`, lines 20–29
of `app.py`): any raised exception — network error, parse error,
non-2xx response — carried as its message. -/
inductive ScrapeError where
  | failure : String → ScrapeError
deriving DecidableEq, Repr

/-- Lines 49–52 of `app.py`: `SUPERDRUG_BRANDS = fetch_superdrug_brands()`
inside `try`, with `except Exception: SUPERDRUG_BRANDS = []`. -/
def superdrugBrandsOf : Except ScrapeError (List String) → List String
  | .ok l => l
  | .error _ => []

/-- Line 53 of `app.py` with the manual list and the scrape outcome as
parameters: `KNOWN_BRANDS = list(dict.fromkeys(MANUAL_BRANDS + SUPERDRUG_BRANDS))`. -/
def knownBrandsOf (manual : List String) (fetched : Except ScrapeError (List String)) :
    List String :=
  build_registry manual (superdrugBrandsOf fetched)

/-- The `MANUAL_BRANDS` constant (lines 32–48 of `app.py`). -/
def MANUAL_BRANDS : List String := [
  "L\x27Oréal", "Maybelline", "Garnier", "NYX", "Essie",
  "Kiehl’s", "CeraVe", "Vichy", "Lancôme", "Urban Decay",
  "La Roche-Posay", "YSL", "Izzy Miyake", "Police", "Zadig and Voltaire",
  "Ghost", "John Paul Gaultier", "Playboy", "Hugo Boss", "Ted Baker",
  "Armani", "Giorgio Armani", "Misguided", "Sarah Jessica Parker",
  "Jennifer Lopez", "Ariana Grande", "Marc Jacobs", "Paco Rabanne",
  "Guess", "DKNY", "Ralph Lauren", "Longhorn", "Thierry Mugler",
  "David Beckham", "Calvin Klein",
  "Olay", "Nivea", "Dove", "Simple", "Neutrogena", "E45",
  "Johnson & Johnson", "No7", "Rimmel", "Revlon", "Essence",
  "Bourjois", "Max Factor", "Hawaiian Tropic", "Aveeno",
  "Clean & Clear", "NARS", "Clinique", "Bobbi Brown",
  "Estée Lauder", "Chanel", "Dior", "Gucci", "Versace",
  "Dolce & Gabbana", "Burberry", "Lacoste", "Schwarzkopf",
  "TRESemmé"]

/-! ## Prompt builder (lines 56–78 and 108–111 of `app.py`) -/

/-- The text of `PROMPT_TEMPLATE` before the `{brands}` placeholder. -/
def promptPartA : String :=
  "\nYou are a brand name correction assistant. I will provide the list of values from the \x27brand\x27 column of an Excel sheet. Your job is to correct any misspelled or abbreviated brand names, using only the known correct names below.\n\nTask:\n- Read each brand value exactly as given.\n- If it is misspelled, correct it to one of the known brands.\n- If it is an abbreviation (e.g. SJP, JPG, JLO, CK), expand it to the proper full brand name.\n- If it is not a brand, or already correct, leave it unchanged.\n- If you encounter an unfamiliar acronym or abbreviation that could plausibly map to one of the known brands, attempt to expand it.\n\nKnown correct brand names:\n"

/-- The text of `PROMPT_TEMPLATE` between `{brands}` and `{csv_brands}`. -/
def promptPartB : String :=
  "\n\nKnown abbreviations:\nSJP -> Sarah Jessica Parker\nJPG -> John Paul Gaultier\nJLO -> Jennifer Lopez\nCK  -> Calvin Klein\n\nReturn only the corrected values in CSV format with header \x27brand\x27 and rows in the same order. Do not include any extra text or formatting.\n```\n"

/-- The text of `PROMPT_TEMPLATE` after the `{csv_brands}` placeholder. -/
def promptPartC : String := "\n```"

/-- The `PROMPT_TEMPLATE` constant (lines 56–78 of `app.py`). -/
def PROMPT_TEMPLATE : String :=
  promptPartA ++ "{brands}" ++ promptPartB ++ "{csv_brands}" ++ promptPartC

/-- `PROMPT_TEMPLATE.format(brands=..., csv_brands=...)` (lines 108–111
of `app.py`): substitute the two placeholders. -/
def buildPrompt (brands csvBrands : String) : String :=
  promptPartA ++ brands ++ promptPartB ++ csvBrands ++ promptPartC

/-! ## Sheet pipeline (lines 92–142 of `app.py`) -/

/-- A failure of the oracle call (the `except` branch of lines 122–124
of `app.py`), carrying the exception message. -/
inductive OracleError where
  | apiError : String → OracleError
deriving DecidableEq, Repr

/-- The outcome recorded for one sheet:
* `skipped df` — the sheet had no "brand" column and was passed through
  unchanged (lines 97–99 of `app.py`), with no oracle call issued;
* `corrected df payload` — the sheet was corrected in place, `payload`
  being the CSV block that was serialized from the target column and
  submitted to the oracle. -/
inductive SheetResult where
  | skipped : Frame → SheetResult
  | corrected : Frame → String → SheetResult
deriving DecidableEq, Repr

/-- A fatal error while processing one sheet (each aborts the whole run
via `st.stop`):
* `oracleFailure` — the chat-completion call raised (lines 122–124);
* `responseParseError` — `pd.read_csv` failed on the normalized text,
  which is carried for diagnosis (lines 130–135);
* `brandKeyError` — the parsed response has no `brand` column, so
  `corrected_df['brand']` raises `KeyError` (line 137). -/
inductive PipeError where
  | oracleFailure : OracleError → PipeError
  | responseParseError : String → CsvError → PipeError
  | brandKeyError : PipeError
deriving DecidableEq, Repr

/-- Lines 96 of `app.py`:
`brand_cols = [col for col in df.columns if col.lower() == 'brand']`. -/
def brandCols (df : Frame) : List String :=
  df.cols.filter (fun c => pyLower c == "brand")

/-- Lines 126–138 of `app.py`, after the oracle returned: normalize is
already applied, parse the CSV, extract the `brand` column, assign it in
place. -/
def processResponse (df : Frame) (col : String) (payload : String)
    (normalizedText : String) : Except PipeError SheetResult :=
  match pdReadCsv normalizedText with
  | .error e => .error (.responseParseError normalizedText e)
  | .ok cdf =>
    match getColVals cdf "brand" with
    | none => .error .brandKeyError
    | some newVals => .ok (.corrected (setCol df col newVals) payload)

/-- Lines 112–138 of `app.py`: either the chat-completion call raised
(`st.stop`, lines 122–124) or its reply content is stripped, normalized
and processed. -/
def processOracleResult (df : Frame) (col payload : String) :
    Except OracleError String → Except PipeError SheetResult
  | .error e => .error (.oracleFailure e)
  | .ok content => processResponse df col payload (normalize (pyStrip content))

/-- Lines 102–138 of `app.py` for a sheet whose first matching column is
`col`: stringify the column, serialize it to CSV, build the prompt, call
the oracle, strip and normalize its reply, then parse and assign. -/
def processFoundCol (oracle : String → Except OracleError String)
    (registry : List String) (df : Frame) (col : String) : Except PipeError SheetResult :=
  let valsStr := ((getColVals df col).getD []).map pyStrCell
  let payload := seriesToCsv col valsStr
  let prompt := buildPrompt (joinWithSep ", " registry) payload
  processOracleResult df col payload (oracle prompt)

/-- One iteration of the `for sheet_name, df in sheets.items()` loop
(lines 95–138 of `app.py`): a sheet without a "brand" column passes
through unchanged, otherwise its first matching column is corrected. -/
def processSheet (oracle : String → Except OracleError String)
    (registry : List String) (df : Frame) : Except PipeError SheetResult :=
  match brandCols df with
  | [] => .ok (.skipped df)
  | col :: _ => processFoundCol oracle registry df col

/-- A fatal outcome of the whole run. -/
inductive RunError where
  /-- Some sheet aborted the run (`st.stop` inside the loop). -/
  | sheetFailure : String → PipeError → RunError
  /-- Lines 140–142 of `app.py`: no sheet had a "brand" column
  ("No sheets had a 'brand' column. Nothing to correct."). -/
  | noTargetColumn : RunError
deriving DecidableEq, Repr

/-- The sheet loop: thread the `processed_any` flag and accumulate the
`corrected_sheets` mapping (in reverse); the first sheet failure aborts. -/
def runSheetsAux (oracle : String → Except OracleError String) (registry : List String) :
    List (String × Frame) → Bool → List (String × Frame) →
    Except RunError (Bool × List (String × Frame))
  | [], processedAny, acc => .ok (processedAny, acc.reverse)
  | (name, df) :: rest, processedAny, acc =>
    match processSheet oracle registry df with
    | .error e => .error (.sheetFailure name e)
    | .ok (.skipped d) => runSheetsAux oracle registry rest processedAny ((name, d) :: acc)
    | .ok (.corrected d _) => runSheetsAux oracle registry rest true ((name, d) :: acc)

/-- Lines 92–142 of `app.py`: process every sheet in order; if no sheet
had a "brand" column the run ends in the fatal no-target-column state
(lines 140–142) and no export buffer is built; otherwise the corrected
workbook (the input of the export step, lines 145–157) is returned. -/
def runPipeline (oracle : String → Except OracleError String) (registry : List String)
    (sheets : List (String × Frame)) : Except RunError (List (String × Frame)) :=
  match runSheetsAux oracle registry sheets false [] with
  | .error e => .error e
  | .ok (false, _) => .error .noTargetColumn
  | .ok (true, out) => .ok out

/-! ## Lemmas: `splitlines` and the normalizer -/

lemma slAux_nil (acc : List Char) (b : Bool) :
    slAux [] acc b = if acc = [] then [] else [acc.reverse] := rfl

lemma slAux_cons (c : Char) (rest acc : List Char) (b : Bool) :
    slAux (c :: rest) acc b =
      if b && (c = '\n' : Bool) then slAux rest acc false
      else if isLineBreakChar c then acc.reverse :: slAux rest [] (c = '\r')
      else slAux rest (c :: acc) false := rfl

lemma slAux_cons_not_break (c : Char) (rest acc : List Char)
    (hc : isLineBreakChar c = false) :
    slAux (c :: rest) acc false = slAux rest (c :: acc) false := by
  simp [slAux_cons, hc]

lemma slAux_newline (rest : List Char) (acc : List Char) :
    slAux ('\n' :: rest) acc false = acc.reverse :: slAux rest [] false := by
  simp [slAux_cons, isLineBreakChar]

lemma slAux_append (l : List Char) (hl : ∀ c ∈ l, isLineBreakChar c = false) :
    ∀ rest acc, slAux (l ++ rest) acc false = slAux rest (l.reverse ++ acc) false := by
  induction l with
  | nil => intro rest acc; simp
  | cons c l ih =>
    intro rest acc
    have hc : isLineBreakChar c = false := hl c (by simp)
    rw [List.cons_append, slAux_cons_not_break c _ _ hc,
      ih (fun d hd => hl d (by simp [hd])) rest (c :: acc)]
    simp

lemma splitLinesC_single (l : List Char) (hl : ∀ c ∈ l, isLineBreakChar c = false) :
    splitLinesC l = if l = [] then [] else [l] := by
  have h := slAux_append l hl [] []
  simp only [List.append_nil] at h
  unfold splitLinesC
  rw [h, slAux_nil]
  simp

lemma splitLinesC_joinNLc (L : List (List Char))
    (hL : ∀ l ∈ L, ∀ c ∈ l, isLineBreakChar c = false) :
    splitLinesC (joinNLc L) = dropTrailingBlankC L := by
  induction L with
  | nil => rfl
  | cons l ls ih =>
    cases ls with
    | nil =>
      show splitLinesC l = dropTrailingBlankC [l]
      rw [splitLinesC_single l (hL l (by simp))]
      unfold dropTrailingBlankC
      by_cases h : l = [] <;> simp [h]
    | cons l2 ls2 =>
      show splitLinesC (l ++ '\n' :: joinNLc (l2 :: ls2)) = l :: dropTrailingBlankC (l2 :: ls2)
      unfold splitLinesC
      rw [slAux_append l (hL l (by simp)) _ [], List.append_nil, slAux_newline,
        List.reverse_reverse]
      exact congrArg _ (ih (fun m hm => hL m (by simp [hm])))

lemma slAux_breakFree (cs : List Char) :
    ∀ (acc : List Char) (b : Bool), (∀ c ∈ acc, isLineBreakChar c = false) →
      ∀ l ∈ slAux cs acc b, ∀ c ∈ l, isLineBreakChar c = false := by
  induction cs with
  | nil =>
    intro acc b hacc l hl
    rw [slAux_nil] at hl
    by_cases h : acc = [] <;> simp [h] at hl
    subst hl
    intro c hc
    exact hacc c (List.mem_reverse.mp hc)
  | cons c cs ih =>
    intro acc b hacc l hl
    rw [slAux_cons] at hl
    by_cases h1 : b && (c = '\n' : Bool)
    · rw [if_pos h1] at hl
      exact ih acc false hacc l hl
    · rw [if_neg h1] at hl
      by_cases h2 : isLineBreakChar c
      · rw [if_pos h2] at hl
        rcases List.mem_cons.mp hl with h | h
        · subst h
          intro d hd
          exact hacc d (List.mem_reverse.mp hd)
        · exact ih [] _ (by simp) l h
      · rw [if_neg h2] at hl
        refine ih (c :: acc) false ?_ l hl
        intro d hd
        rcases List.mem_cons.mp hd with h | h
        · subst h; exact Bool.eq_false_iff.mpr h2
        · exact hacc d h

lemma splitLinesC_breakFree (cs : List Char) :
    ∀ l ∈ splitLinesC cs, ∀ c ∈ l, isLineBreakChar c = false :=
  slAux_breakFree cs [] false (by simp)

lemma keptLines_breakFree (s : String) :
    ∀ l ∈ keptLines s, ∀ c ∈ l, isLineBreakChar c = false := by
  intro l hl
  exact splitLinesC_breakFree s.data l (List.mem_filter.mp hl).1

lemma mem_dropTrailingBlankC {L : List (List Char)} {a : List Char}
    (h : a ∈ dropTrailingBlankC L) : a ∈ L := by
  induction L with
  | nil => simp [dropTrailingBlankC] at h
  | cons l ls ih =>
    cases ls with
    | nil =>
      unfold dropTrailingBlankC at h
      by_cases he : l = []
      · simp [he] at h
      · simp [he] at h
        simp [h]
    | cons l2 ls2 =>
      rcases List.mem_cons.mp h with h | h
      · simp [h]
      · exact List.mem_cons_of_mem _ (ih h)

lemma splitLinesC_normalize (s : String) :
    splitLinesC (normalize s).data = dropTrailingBlankC (keptLines s) := by
  show splitLinesC (normalizeC s.data) = dropTrailingBlankC (keptLines s)
  unfold normalizeC
  exact splitLinesC_joinNLc _ (keptLines_breakFree s)

/-- C7: `normalize` splits the raw oracle text into lines, drops exactly
the code-fence delimiter lines (the lines whose whitespace-stripped form
begins with the triple-backtick marker, the test of line 127 of
`app.py`), and rejoins the remaining lines in order; in particular
`normalize "```\nbrand\nNike\n```" = "brand\nNike"`.  The extensional
characterisation: the lines of the normalized text are exactly the
non-fence lines of the input in their original order (rejoining with
`"\n"` drops one trailing empty line, which `dropTrailingBlankC`
records), and no fence line survives. -/
theorem spec_c7 :
    normalize "```\nbrand\nNike\n```" = "brand\nNike" ∧
    (∀ s : String, splitLinesC (normalize s).data =
      dropTrailingBlankC ((splitLinesC s.data).filter (fun l => !(isFenceLineC l)))) ∧
    (∀ s : String, ∀ l ∈ splitLinesC (normalize s).data, isFenceLineC l = false) := by
  refine ⟨by decide, fun s => splitLinesC_normalize s, fun s l hl => ?_⟩
  rw [splitLinesC_normalize] at hl
  have := (List.mem_filter.mp (mem_dropTrailingBlankC hl)).2
  simpa using this

/-- C7 witness: a concrete surviving line of a concrete normalization is
not a fence line. -/
theorem spec_c7_witness :
    (['N', 'i', 'k', 'e'] ∈ splitLinesC (normalize "```\nNike").data) ∧
    isFenceLineC ['N', 'i', 'k', 'e'] = false :=
  ⟨by decide, spec_c7.2.2 "```\nNike" ['N', 'i', 'k', 'e'] (by decide)⟩

/-- C8 counterexample: `normalize` is not idempotent on every text.  For
`x = "a\n\n"`, `splitlines` gives `["a", ""]` and rejoining gives
`"a\n"`; a second pass splits that into `["a"]` and returns `"a"`. -/
theorem spec_c8_counterexample :
    normalize (normalize "a\n\n") ≠ normalize "a\n\n" := by decide

/-- C8 (amended): `normalize (normalize x) = normalize x` for every text
`x` whose kept (non-fence) lines do not end with an empty line; when
they do, the `"\n"`-rejoin loses that trailing empty line and a second
pass differs (see `spec_c8_counterexample`). -/
theorem spec_c8 (s : String)
    (h : dropTrailingBlankC (keptLines s) = keptLines s) :
    normalize (normalize s) = normalize s := by
  have h1 : splitLinesC (normalize s).data = keptLines s := by
    rw [splitLinesC_normalize, h]
  show String.mk (normalizeC (normalize s).data) = normalize s
  unfold normalizeC
  have h2 : (keptLines s).filter (fun l => !(isFenceLineC l)) = keptLines s :=
    List.filter_eq_self.mpr (fun a ha => (List.mem_filter.mp ha).2)
  rw [h1, h2]
  rfl

/-- C8 witness: the amended idempotence applied at `"brand\nNike"`. -/
theorem spec_c8_witness :
    dropTrailingBlankC (keptLines "brand\nNike") = keptLines "brand\nNike" ∧
    normalize (normalize "brand\nNike") = normalize "brand\nNike" :=
  ⟨by decide, spec_c8 "brand\nNike" (by decide)⟩

/-! ## Lemmas: the brand registry -/

lemma dedupFirstSpec_sublist (l : List String) : (dedupFirstSpec l).Sublist l := by
  induction l using dedupFirstSpec.induct with
  | case1 => simp [dedupFirstSpec]
  | case2 x xs ih =>
    rw [dedupFirstSpec]
    exact List.Sublist.cons₂ x (ih.trans (List.filter_sublist xs))

lemma mem_dedupFirstSpec {l : List String} {a : String} :
    a ∈ dedupFirstSpec l ↔ a ∈ l := by
  constructor
  · exact fun h => (dedupFirstSpec_sublist l).subset h
  · intro h
    induction l using dedupFirstSpec.induct with
    | case1 => simp at h
    | case2 x xs ih =>
      rw [dedupFirstSpec]
      rcases List.mem_cons.mp h with h | h
      · simp [h]
      · by_cases hax : a = x
        · simp [hax]
        · exact List.mem_cons_of_mem x (ih (List.mem_filter.mpr ⟨h, by simp [hax]⟩))

lemma dedupFirstSpec_nodup (l : List String) : (dedupFirstSpec l).Nodup := by
  induction l using dedupFirstSpec.induct with
  | case1 => simp [dedupFirstSpec]
  | case2 x xs ih =>
    rw [dedupFirstSpec]
    refine List.nodup_cons.mpr ⟨fun hx => ?_, ih⟩
    have := (List.mem_filter.mp (mem_dedupFirstSpec.mp hx)).2
    simp at this

lemma pyDictFromKeys_go (l : List String) :
    ∀ acc : List String,
      l.foldl (fun acc x => if x ∈ acc then acc else acc ++ [x]) acc =
        acc ++ dedupFirstSpec (l.filter (fun x => !(decide (x ∈ acc)))) := by
  induction l with
  | nil => intro acc; simp [dedupFirstSpec]
  | cons x xs ih =>
    intro acc
    rw [List.foldl_cons]
    by_cases hx : x ∈ acc
    · rw [if_pos hx, ih acc]
      have : (x :: xs).filter (fun y => !(decide (y ∈ acc))) =
          xs.filter (fun y => !(decide (y ∈ acc))) := by
        simp [List.filter_cons, hx]
      rw [this]
    · rw [if_neg hx, ih (acc ++ [x])]
      have h1 : (x :: xs).filter (fun y => !(decide (y ∈ acc))) =
          x :: xs.filter (fun y => !(decide (y ∈ acc))) := by
        simp [List.filter_cons, hx]
      have h2 : xs.filter (fun y => !(decide (y ∈ acc ++ [x]))) =
          (xs.filter (fun y => !(decide (y ∈ acc)))).filter (fun y => !(y == x)) := by
        rw [List.filter_filter]
        refine List.filter_congr ?_
        intro a _
        by_cases hax : a = x
        · subst hax; simp
        · by_cases haa : a ∈ acc <;> simp [haa, hax]
      rw [h1, dedupFirstSpec, h2, List.append_assoc]
      rfl

lemma build_registry_eq_dedup (manual scraped : List String) :
    build_registry manual scraped = dedupFirstSpec (manual ++ scraped) := by
  unfold build_registry pyDictFromKeys
  rw [pyDictFromKeys_go (manual ++ scraped) []]
  have : (manual ++ scraped).filter (fun x => !(decide (x ∈ ([] : List String)))) =
      manual ++ scraped := List.filter_eq_self.mpr (by simp)
  rw [this]
  rfl

/-- C5: `build_registry` concatenates the manual list and the scraped
list and removes duplicates keeping each string's first occurrence: it
equals the reference first-occurrence deduplication of the
concatenation, it is a duplicate-free subsequence of the concatenation
containing exactly the concatenation's elements, and on the spec's
example `build_registry ["A","B","A"] ["B","C"] = ["A","B","C"]`. -/
theorem spec_c5 :
    (∀ manual scraped : List String,
      build_registry manual scraped = dedupFirstSpec (manual ++ scraped) ∧
      (build_registry manual scraped).Sublist (manual ++ scraped) ∧
      (build_registry manual scraped).Nodup ∧
      (∀ a, a ∈ build_registry manual scraped ↔ a ∈ manual ++ scraped)) ∧
    build_registry ["A", "B", "A"] ["B", "C"] = ["A", "B", "C"] := by
  refine ⟨fun manual scraped => ?_, by decide⟩
  rw [build_registry_eq_dedup]
  exact ⟨rfl, dedupFirstSpec_sublist _, dedupFirstSpec_nodup _,
    fun a => mem_dedupFirstSpec⟩

/-- C6: a failed scrape is not fatal — lines 49–53 of `app.py` replace
the scraped list with `[]`, so for every scrape exception the registry
equals the one built from the manual list alone (which is the
first-occurrence deduplication of the manual list). -/
theorem spec_c6 :
    ∀ (manual : List String) (e : ScrapeError),
      knownBrandsOf manual (.error e) = build_registry manual [] ∧
      build_registry manual [] = dedupFirstSpec manual := by
  intro manual e
  refine ⟨rfl, ?_⟩
  rw [build_registry_eq_dedup, List.append_nil]

/-! ## Lemmas: column assignment -/

lemma getElem?_setRowCell_ne (r : List Cell) :
    ∀ (cols : List String) (name : String) (v : Cell) (j : Nat),
      cols[j]? ≠ some name → (setRowCell cols name v r)[j]? = r[j]? := by
  induction r with
  | nil => intro cols name v j _; cases cols <;> rfl
  | cons c rc ih =>
    intro cols name v j h
    cases cols with
    | nil => rfl
    | cons cn cs =>
      cases j with
      | zero =>
        simp only [List.getElem?_cons_zero, ne_eq, Option.some.injEq] at h
        simp [setRowCell, beq_eq_false_iff_ne.mpr h]
      | succ j =>
        simp only [List.getElem?_cons_succ] at h
        simp [setRowCell, List.getElem?_cons_succ, ih cs name v j h]

lemma getElem?_setRowCell_eq (r : List Cell) :
    ∀ (cols : List String) (name : String) (v : Cell) (j : Nat),
      cols[j]? = some name → j < r.length → (setRowCell cols name v r)[j]? = some v := by
  induction r with
  | nil => intro cols name v j _ hj; simp at hj
  | cons c rc ih =>
    intro cols name v j h hj
    cases cols with
    | nil => simp at h
    | cons cn cs =>
      cases j with
      | zero =>
        simp only [List.getElem?_cons_zero, Option.some.injEq] at h
        simp [setRowCell, beq_iff_eq.mpr h]
      | succ j =>
        simp only [List.getElem?_cons_succ] at h
        simp only [List.length_cons, Nat.succ_lt_succ_iff] at hj
        simp [setRowCell, List.getElem?_cons_succ, ih cs name v j h hj]

lemma setColRows_length (cols : List String) (name : String) (vals : List Cell) :
    ∀ (rows : List (List Cell)) (i : Nat), (setColRows cols name vals rows i).length = rows.length := by
  intro rows
  induction rows with
  | nil => intro i; rfl
  | cons r rs ih => intro i; simp [setColRows, ih (i + 1)]

lemma getElem?_setColRows (cols : List String) (name : String) (vals : List Cell) :
    ∀ (rows : List (List Cell)) (i k : Nat),
      (setColRows cols name vals rows i)[k]? =
        (rows[k]?).map (fun r => setRowCell cols name (vals.getD (i + k) Cell.nan) r) := by
  intro rows
  induction rows with
  | nil => intro i k; simp [setColRows]
  | cons r rs ih =>
    intro i k
    cases k with
    | zero => simp [setColRows]
    | succ k =>
      simp only [setColRows, List.getElem?_cons_succ, ih (i + 1) k]
      have : i + 1 + k = i + (k + 1) := by omega
      rw [this]

lemma setCol_cols (f : Frame) (name : String) (vals : List Cell) :
    (setCol f name vals).cols = f.cols := rfl

lemma setCol_rows_length (f : Frame) (name : String) (vals : List Cell) :
    (setCol f name vals).rows.length = f.rows.length :=
  setColRows_length f.cols name vals f.rows 0

lemma cellAt_setCol_ne (f : Frame) (name : String) (vals : List Cell) (i j : Nat)
    (h : f.cols[j]? ≠ some name) :
    cellAt (setCol f name vals) i j = cellAt f i j := by
  unfold cellAt setCol
  rw [getElem?_setColRows]
  cases hr : f.rows[i]? with
  | none => rfl
  | some r => simp [getElem?_setRowCell_ne r f.cols name _ j h]

lemma cellAt_setCol_eq (f : Frame) (name : String) (vals : List Cell) (i j : Nat)
    (h : f.cols[j]? = some name)
    (hrect : ∀ r ∈ f.rows, f.cols.length ≤ r.length)
    (hi : i < f.rows.length) :
    cellAt (setCol f name vals) i j = some (vals.getD i Cell.nan) := by
  unfold cellAt setCol
  rw [getElem?_setColRows]
  cases hr : f.rows[i]? with
  | none => rw [List.getElem?_eq_none_iff] at hr; omega
  | some r =>
    have hjc : j < f.cols.length := by
      rcases List.getElem?_eq_some.mp h with ⟨hj, _⟩
      exact hj
    have hjr : j < r.length :=
      Nat.lt_of_lt_of_le hjc (hrect r (List.getElem?_mem hr))
    simp [getElem?_setRowCell_eq r f.cols name _ j h hjr]

/-! ## Lemmas: the sheet pipeline -/

lemma processSheet_of_no_col {oracle : String → Except OracleError String}
    {registry : List String} {df : Frame} (h : brandCols df = []) :
    processSheet oracle registry df = .ok (.skipped df) := by
  unfold processSheet
  rw [h]

lemma processSheet_of_found {oracle : String → Except OracleError String}
    {registry : List String} {df : Frame} {col : String} {rest : List String}
    (h : brandCols df = col :: rest) :
    processSheet oracle registry df = processFoundCol oracle registry df col := by
  unfold processSheet
  rw [h]

lemma processOracleResult_ok_corrected {df : Frame} {col payload : String}
    {res : Except OracleError String} {df' : Frame} {p' : String}
    (h : processOracleResult df col payload res = .ok (.corrected df' p')) :
    p' = payload ∧ ∃ newVals, df' = setCol df col newVals := by
  cases res with
  | error e => simp [processOracleResult] at h
  | ok content =>
    simp only [processOracleResult] at h
    unfold processResponse at h
    split at h
    · simp at h
    · split at h
      · simp at h
      · rename_i newVals hv
        simp only [Except.ok.injEq, SheetResult.corrected.injEq] at h
        exact ⟨h.2.symm, newVals, h.1.symm⟩

lemma processOracleResult_ne_skipped {df : Frame} {col payload : String}
    {res : Except OracleError String} {d : Frame} :
    processOracleResult df col payload res ≠ .ok (.skipped d) := by
  cases res with
  | error e => simp [processOracleResult]
  | ok content =>
    simp only [processOracleResult]
    unfold processResponse
    split
    · simp
    · split
      · simp
      · simp

lemma processSheet_ok_skipped {oracle : String → Except OracleError String}
    {registry : List String} {df d : Frame}
    (h : processSheet oracle registry df = .ok (.skipped d)) :
    brandCols df = [] ∧ d = df := by
  cases hb : brandCols df with
  | nil =>
    rw [processSheet_of_no_col hb] at h
    simp only [Except.ok.injEq, SheetResult.skipped.injEq] at h
    exact ⟨rfl, h.symm⟩
  | cons col rest =>
    rw [processSheet_of_found hb] at h
    exact absurd h processOracleResult_ne_skipped

lemma processSheet_ok_corrected {oracle : String → Except OracleError String}
    {registry : List String} {df df' : Frame} {col payload : String} {rest : List String}
    (hcol : brandCols df = col :: rest)
    (h : processSheet oracle registry df = .ok (.corrected df' payload)) :
    payload = seriesToCsv col (((getColVals df col).getD []).map pyStrCell) ∧
    ∃ newVals, df' = setCol df col newVals := by
  rw [processSheet_of_found hcol] at h
  exact processOracleResult_ok_corrected h

/-! ## Lemmas: the workbook loop -/

lemma runSheetsAux_all_skipped {oracle : String → Except OracleError String}
    {registry : List String} :
    ∀ (l : List (String × Frame)) (b : Bool) (acc : List (String × Frame)),
      (∀ p ∈ l, brandCols p.2 = []) →
      runSheetsAux oracle registry l b acc = .ok (b, acc.reverse ++ l) := by
  intro l
  induction l with
  | nil => intro b acc _; simp [runSheetsAux]
  | cons p rest ih =>
    intro b acc hl
    obtain ⟨name, df⟩ := p
    have hdf : brandCols df = [] := hl (name, df) (by simp)
    simp only [runSheetsAux, processSheet_of_no_col hdf]
    rw [ih b ((name, df) :: acc) (fun q hq => hl q (by simp [hq]))]
    simp

lemma runSheetsAux_true_not_false {oracle : String → Except OracleError String}
    {registry : List String} :
    ∀ (l : List (String × Frame)) (acc : List (String × Frame)) (out : List (String × Frame)),
      runSheetsAux oracle registry l true acc ≠ .ok (false, out) := by
  intro l
  induction l with
  | nil => intro acc out; simp [runSheetsAux]
  | cons p rest ih =>
    intro acc out
    obtain ⟨name, df⟩ := p
    simp only [runSheetsAux]
    cases hps : processSheet oracle registry df with
    | error e => simp
    | ok sr =>
      cases sr with
      | skipped d => exact ih ((name, d) :: acc) out
      | corrected d pay => exact ih ((name, d) :: acc) out

lemma runSheetsAux_false_ok {oracle : String → Except OracleError String}
    {registry : List String} :
    ∀ (l : List (String × Frame)) (acc : List (String × Frame)) (out : List (String × Frame)),
      runSheetsAux oracle registry l false acc = .ok (false, out) →
      ∀ p ∈ l, brandCols p.2 = [] := by
  intro l
  induction l with
  | nil => intro acc out _; simp
  | cons p rest ih =>
    intro acc out h q hq
    obtain ⟨name, df⟩ := p
    simp only [runSheetsAux] at h
    cases hps : processSheet oracle registry df with
    | error e => rw [hps] at h; simp at h
    | ok sr =>
      rw [hps] at h
      cases sr with
      | skipped d =>
        rcases List.mem_cons.mp hq with hq | hq
        · subst hq
          exact (processSheet_ok_skipped hps).1
        · exact ih ((name, d) :: acc) out h q hq
      | corrected d pay =>
        exact absurd h (runSheetsAux_true_not_false rest ((name, d) :: acc) out)

lemma runSheetsAux_error_shape {oracle : String → Except OracleError String}
    {registry : List String} :
    ∀ (l : List (String × Frame)) (b : Bool) (acc : List (String × Frame)) (e : RunError),
      runSheetsAux oracle registry l b acc = .error e →
      ∃ name pe, e = .sheetFailure name pe := by
  intro l
  induction l with
  | nil => intro b acc e h; simp [runSheetsAux] at h
  | cons p rest ih =>
    intro b acc e h
    obtain ⟨name, df⟩ := p
    simp only [runSheetsAux] at h
    cases hps : processSheet oracle registry df with
    | error pe =>
      rw [hps] at h
      simp only [Except.error.injEq] at h
      exact ⟨name, pe, h.symm⟩
    | ok sr =>
      rw [hps] at h
      cases sr with
      | skipped d => exact ih b ((name, d) :: acc) e h
      | corrected d pay => exact ih true ((name, d) :: acc) e h

/-- C3: the run ends in the terminal no-target-column error (lines
140–142 of `app.py`, after which `st.stop` prevents the export buffer of
lines 145–157 from being built) exactly when no sheet of the workbook
has a column whose lowercased name is "brand"; and in that case no
output workbook is produced. -/
theorem spec_c3 (oracle : String → Except OracleError String) (registry : List String)
    (sheets : List (String × Frame)) :
    ((runPipeline oracle registry sheets = .error .noTargetColumn) ↔
      (∀ p ∈ sheets, brandCols p.2 = [])) ∧
    ((∀ p ∈ sheets, brandCols p.2 = []) →
      ∀ out, runPipeline oracle registry sheets ≠ .ok out) := by
  have hmpr : (∀ p ∈ sheets, brandCols p.2 = []) →
      runPipeline oracle registry sheets = .error .noTargetColumn := by
    intro hall
    unfold runPipeline
    rw [runSheetsAux_all_skipped sheets false [] hall]
  refine ⟨⟨?_, hmpr⟩, fun hall out => by rw [hmpr hall]; simp⟩
  intro h
  unfold runPipeline at h
  cases hr : runSheetsAux oracle registry sheets false [] with
  | error e =>
    rw [hr] at h
    simp only [Except.error.injEq] at h
    obtain ⟨name, pe, he⟩ := runSheetsAux_error_shape sheets false [] e hr
    rw [he] at h
    simp at h
  | ok pr =>
    rw [hr] at h
    obtain ⟨b, out⟩ := pr
    cases b with
    | false => exact runSheetsAux_false_ok sheets [] out hr
    | true => simp at h

/-- C3 witness: a concrete one-sheet workbook without a "brand" column
ends in the no-target-column error. -/
theorem spec_c3_witness :
    runPipeline (fun _ => .ok "") [] [("S1", ⟨["name", "price"], [[Cell.text "x", Cell.num 3]]⟩)] =
      .error .noTargetColumn :=
  (spec_c3 (fun _ => .ok "") [] [("S1", ⟨["name", "price"], [[Cell.text "x", Cell.num 3]]⟩)]).1.mpr
    (by decide)

/-- C4: a sheet without a case-insensitive "brand" column is passed
through unchanged and recorded as skipped, not as an error (lines 96–99
of `app.py`).  The conclusion holds for every oracle, and the oracle
argument does not occur in it: no oracle call is issued for such a
sheet. -/
theorem spec_c4 (oracle : String → Except OracleError String) (registry : List String)
    (df : Frame) (h : brandCols df = []) :
    processSheet oracle registry df = .ok (.skipped df) :=
  processSheet_of_no_col h

/-- C4 witness: a concrete brand-less sheet is skipped unchanged. -/
theorem spec_c4_witness :
    brandCols ⟨["name", "price"], [[Cell.text "x", Cell.num 3]]⟩ = [] ∧
    processSheet (fun _ => .ok "irrelevant") ["Nike"]
        ⟨["name", "price"], [[Cell.text "x", Cell.num 3]]⟩ =
      .ok (.skipped ⟨["name", "price"], [[Cell.text "x", Cell.num 3]]⟩) :=
  ⟨by decide,
   spec_c4 (fun _ => .ok "irrelevant") ["Nike"]
     ⟨["name", "price"], [[Cell.text "x", Cell.num 3]]⟩ (by decide)⟩

/-- C2: when a sheet's correction succeeds, only the located target
column is replaced (line 137 of `app.py` assigns `df[col]` in place):
the column names, the row count, and — cell by cell at each row
position, so also the row order — every column not named `col` are
identical before and after. -/
theorem spec_c2 (oracle : String → Except OracleError String) (registry : List String)
    (df df' : Frame) (payload col : String) (rest : List String)
    (hcol : brandCols df = col :: rest)
    (h : processSheet oracle registry df = .ok (.corrected df' payload)) :
    df'.cols = df.cols ∧ df'.rows.length = df.rows.length ∧
    ∀ i j, df.cols[j]? ≠ some col → cellAt df' i j = cellAt df i j := by
  obtain ⟨-, newVals, hdf⟩ := processSheet_ok_corrected hcol h
  subst hdf
  exact ⟨rfl, setCol_rows_length df col newVals,
    fun i j hj => cellAt_setCol_ne df col newVals i j hj⟩

/-- C2 witness: a concrete successful correction leaves the "qty" cell
unchanged. -/
theorem spec_c2_witness :
    processSheet (fun _ => .ok "```\nbrand\nNike\nAdidas\n```") []
        ⟨["Brand", "qty"], [[Cell.text "Nke", Cell.num 2], [Cell.text "Adids", Cell.num 1]]⟩ =
      .ok (.corrected
        ⟨["Brand", "qty"], [[Cell.text "Nike", Cell.num 2], [Cell.text "Adidas", Cell.num 1]]⟩
        "Brand\nNke\nAdids\n") ∧
    cellAt ⟨["Brand", "qty"], [[Cell.text "Nike", Cell.num 2], [Cell.text "Adidas", Cell.num 1]]⟩ 0 1 =
      cellAt ⟨["Brand", "qty"], [[Cell.text "Nke", Cell.num 2], [Cell.text "Adids", Cell.num 1]]⟩ 0 1 :=
  ⟨rfl,
   (spec_c2 (fun _ => .ok "```\nbrand\nNike\nAdidas\n```") []
      ⟨["Brand", "qty"], [[Cell.text "Nke", Cell.num 2], [Cell.text "Adids", Cell.num 1]]⟩
      ⟨["Brand", "qty"], [[Cell.text "Nike", Cell.num 2], [Cell.text "Adidas", Cell.num 1]]⟩
      "Brand\nNke\nAdids\n" "Brand" [] (by decide) rfl).2.2 0 1 (by decide)⟩

/-- C9: with several case-insensitive "brand" columns, only the first
one (the head of `brand_cols`, line 102 of `app.py`) is serialized into
the submitted payload and replaced; every other matching column (a
different name that also lowercases to "brand") is unchanged. -/
theorem spec_c9 (oracle : String → Except OracleError String) (registry : List String)
    (df df' : Frame) (payload col : String) (rest : List String)
    (hcol : brandCols df = col :: rest)
    (h : processSheet oracle registry df = .ok (.corrected df' payload)) :
    payload = seriesToCsv col (((getColVals df col).getD []).map pyStrCell) ∧
    ∀ i j cj, df.cols[j]? = some cj → cj ≠ col → pyLower cj = "brand" →
      cellAt df' i j = cellAt df i j := by
  obtain ⟨hpay, newVals, hdf⟩ := processSheet_ok_corrected hcol h
  subst hdf
  refine ⟨hpay, fun i j cj hj hne _ => cellAt_setCol_ne df col newVals i j ?_⟩
  rw [hj]
  simp [hne]

/-- C9 witness: with columns "Brand" and "BRAND", the payload comes from
"Brand" and the "BRAND" cell is unchanged. -/
theorem spec_c9_witness :
    ("Brand\nNke\n" :  String) =
      seriesToCsv "Brand"
        (((getColVals ⟨["Brand", "BRAND"], [[Cell.text "Nke", Cell.text "x"]]⟩ "Brand").getD []).map
          pyStrCell) ∧
    cellAt ⟨["Brand", "BRAND"], [[Cell.text "Nike", Cell.text "x"]]⟩ 0 1 =
      cellAt ⟨["Brand", "BRAND"], [[Cell.text "Nke", Cell.text "x"]]⟩ 0 1 :=
  ⟨(spec_c9 (fun _ => .ok "brand\nNike\n") []
      ⟨["Brand", "BRAND"], [[Cell.text "Nke", Cell.text "x"]]⟩
      ⟨["Brand", "BRAND"], [[Cell.text "Nike", Cell.text "x"]]⟩
      "Brand\nNke\n" "Brand" ["BRAND"] (by decide) rfl).1,
   (spec_c9 (fun _ => .ok "brand\nNike\n") []
      ⟨["Brand", "BRAND"], [[Cell.text "Nke", Cell.text "x"]]⟩
      ⟨["Brand", "BRAND"], [[Cell.text "Nike", Cell.text "x"]]⟩
      "Brand\nNke\n" "Brand" ["BRAND"] (by decide) rfl).2 0 1 "BRAND" (by decide) (by decide)
      (by decide)⟩

/-- C10: the payload submitted to the oracle is the CSV, with the column
name as header line, of the stringified target column — every cell
passes through `str` (`astype(str)`, line 103 of `app.py`), so numbers
are submitted as their decimal strings and missing cells as `"nan"`. -/
theorem spec_c10 (oracle : String → Except OracleError String) (registry : List String)
    (df df' : Frame) (payload col : String) (rest : List String)
    (hcol : brandCols df = col :: rest)
    (h : processSheet oracle registry df = .ok (.corrected df' payload)) :
    payload =
      joinWithSep "\n"
        (csvField col ::
          ((getColVals df col).getD []).map (fun cell => csvField (pyStrCell cell))) ++ "\n" ∧
    pyStrCell (Cell.num 7) = "7" ∧ pyStrCell Cell.nan = "nan" := by
  obtain ⟨hpay, -, -⟩ := processSheet_ok_corrected hcol h
  refine ⟨?_, rfl, rfl⟩
  rw [hpay]
  unfold seriesToCsv
  simp only [List.map_cons, List.map_map]
  rfl

/-- C10 witness: a numeric cell and a missing cell are serialized as
`"5"` and `"nan"` in the submitted payload. -/
theorem spec_c10_witness :
    ("brand\n5\nnan\n" : String) =
      joinWithSep "\n"
        (csvField "brand" ::
          ((getColVals ⟨["brand"], [[Cell.num 5], [Cell.nan]]⟩ "brand").getD []).map
            (fun cell => csvField (pyStrCell cell))) ++ "\n" :=
  (spec_c10 (fun _ => .ok "brand\nX\nY") [] ⟨["brand"], [[Cell.num 5], [Cell.nan]]⟩
    ⟨["brand"], [[Cell.text "X"], [Cell.text "Y"]]⟩ "brand\n5\nnan\n" "brand" []
    (by decide) rfl).1

/-- C1 counterexample: the claim fails on the code.  A two-row "brand"
column whose parsed oracle response has a single row does not raise a
`ResponseParseError`: `pd.read_csv` succeeds and the index-aligned
assignment `df[col] = corrected_df[\'brand\']` (line 137 of `app.py`)
silently writes NaN into the second row, and a corrected sheet IS
produced. -/
theorem spec_c1_counterexample :
    processSheet (fun _ => .ok "brand\nNike") []
        ⟨["brand", "qty"], [[Cell.text "Nkie", Cell.num 1], [Cell.text "Adids", Cell.num 2]]⟩ =
      .ok (.corrected
        ⟨["brand", "qty"], [[Cell.text "Nike", Cell.num 1], [Cell.nan, Cell.num 2]]⟩
        "brand\nNkie\nAdids\n") := rfl

/-- C1 (amended): a parsed response whose `brand` column has a different
number of rows than the submitted column is not an error in column mode:
for every sheet with a target column and every response that parses to a
frame with a `brand` column — with no constraint relating its length to
the sheet's row count — the pipeline produces a corrected sheet, and the
target column receives the parsed values positionally, rows beyond the
parsed length receiving NaN (extra parsed values are dropped). -/
theorem spec_c1 (registry : List String) (df : Frame) (col : String) (rest : List String)
    (raw : String) (cdf : Frame) (newVals : List Cell)
    (hcol : brandCols df = col :: rest)
    (hrect : ∀ r ∈ df.rows, df.cols.length ≤ r.length)
    (hparse : pdReadCsv (normalize (pyStrip raw)) = .ok cdf)
    (hvals : getColVals cdf "brand" = some newVals) :
    processSheet (fun _ => .ok raw) registry df =
      .ok (.corrected (setCol df col newVals)
        (seriesToCsv col (((getColVals df col).getD []).map pyStrCell))) ∧
    ∀ i j, df.cols[j]? = some col → i < df.rows.length →
      cellAt (setCol df col newVals) i j = some (newVals.getD i Cell.nan) := by
  constructor
  · rw [processSheet_of_found hcol]
    simp only [processFoundCol, processOracleResult]
    unfold processResponse
    simp only [hparse, hvals]
  · intro i j hj hi
    exact cellAt_setCol_eq df col newVals i j hj hrect hi

/-- C1 witness: the amended behaviour at the concrete mismatched input —
one parsed row against two sheet rows — where the second target cell
becomes NaN. -/
theorem spec_c1_witness :
    processSheet (fun _ => .ok "brand\nNike") []
        ⟨["brand", "qty"], [[Cell.text "Nkie", Cell.num 1], [Cell.text "Adids", Cell.num 2]]⟩ =
      .ok (.corrected
        (setCol ⟨["brand", "qty"], [[Cell.text "Nkie", Cell.num 1], [Cell.text "Adids", Cell.num 2]]⟩
          "brand" [Cell.text "Nike"])
        (seriesToCsv "brand"
          (((getColVals
              ⟨["brand", "qty"], [[Cell.text "Nkie", Cell.num 1], [Cell.text "Adids", Cell.num 2]]⟩
              "brand").getD []).map pyStrCell))) ∧
    cellAt
        (setCol ⟨["brand", "qty"], [[Cell.text "Nkie", Cell.num 1], [Cell.text "Adids", Cell.num 2]]⟩
          "brand" [Cell.text "Nike"]) 1 0 =
      some ([Cell.text "Nike"].getD 1 Cell.nan) :=
  ⟨(spec_c1 [] ⟨["brand", "qty"], [[Cell.text "Nkie", Cell.num 1], [Cell.text "Adids", Cell.num 2]]⟩
      "brand" [] "brand\nNike" ⟨["brand"], [[Cell.text "Nike"]]⟩ [Cell.text "Nike"]
      (by decide) (by decide) rfl (by decide)).1,
   (spec_c1 [] ⟨["brand", "qty"], [[Cell.text "Nkie", Cell.num 1], [Cell.text "Adids", Cell.num 2]]⟩
      "brand" [] "brand\nNike" ⟨["brand"], [[Cell.text "Nike"]]⟩ [Cell.text "Nike"]
      (by decide) (by decide) rfl (by decide)).2 1 0 (by decide) (by decide)⟩

end BrandCorrector
